import Mathlib

/-!
Verification of the modernfiction batch-transform pipeline.

This file gives a shallow embedding, in Lean, of the core algorithms of the
repository and proves (or refutes) the specification claims about them:

* `group_navigable_strings` — the sentence-boundary batcher
  (transform_text.py, lines 22-48);
* `should_transform` — the chunked transform decision
  (llm/should_transform.py, lines 105-170);
* `transform_content` — the chunked rewrite with count-mismatch retry
  (llm/transform_content.py, lines 161-323);
* `process_paragraph_group` / `retryLoop` — the per-batch driver with
  provider fallback and its unbounded retry decorator
  (transform_text.py, lines 80-109);
* `RateLimiter` as a transition system — the sliding-window / max-parallel
  admission controller (rate_limiter.py);
* `prescan` / `transform_epub_events` — the orchestrator's document
  pre-scan, output assembly and progress-lifecycle callbacks
  (transform_text.py, lines 154-248).

Remote HTTP exchanges are modelled by oracle functions (the composition of
the POST call, the provider response parser and tag extraction), so every
definition here is executable and deterministic.
-/

/-! ## Batcher: `group_navigable_strings` (transform_text.py, lines 22-48) -/

/-- Sentence-boundary test from `group_navigable_strings`: the rendered text
`t = p_tag.get_text(strip=True)` closes the group when it is non-empty and its
last character is `.`, `?` or `!` (`if text and text[-1] in [".","?","!"]`).
`text[-1]` is modelled as the last character of the string's character list,
so that the predicate evaluates by kernel reduction. -/
def isBoundaryText (t : String) : Bool :=
  match t.data.getLast? with
  | some c => c == '.' || c == '?' || c == '!'
  | none => false

/-- Loop body of `group_navigable_strings`: `cur` is the ongoing
`current_group`; each tag is appended to it, and the group is closed right
after a boundary tag.  `getText` models `p_tag.get_text(strip=True)`. -/
def groupGo (getText : α → String) : List α → List α → List (List α)
  | cur, [] => if cur.isEmpty then [] else [cur]
  | cur, p :: rest =>
    let cur' := cur ++ [p]
    if isBoundaryText (getText p) then cur' :: groupGo getText [] rest
    else groupGo getText cur' rest

/-- `group_navigable_strings`: groups a list of `<p>` tags into sublists based
on simple sentence boundary checks; leftover tags go into a final group. -/
def group_navigable_strings (getText : α → String) (p_tags : List α) :
    List (List α) :=
  groupGo getText [] p_tags

theorem groupGo_join (getText : α → String) :
    ∀ (ps cur : List α), (groupGo getText cur ps).flatten = cur ++ ps := by
  intro ps
  induction ps with
  | nil =>
    intro cur
    by_cases h : cur.isEmpty
    · simp [groupGo, h, List.isEmpty_iff.mp h]
    · simp [groupGo, h]
  | cons p rest ih =>
    intro cur
    by_cases h : isBoundaryText (getText p)
    · simp [groupGo, h, ih]
    · simp [groupGo, h, ih]

theorem groupGo_ne_nil (getText : α → String) :
    ∀ (ps cur : List α), ∀ g ∈ groupGo getText cur ps, g ≠ [] := by
  intro ps
  induction ps with
  | nil =>
    intro cur g hg
    by_cases h : cur.isEmpty
    · simp [groupGo, h] at hg
    · simp [groupGo, h] at hg
      subst hg
      intro e
      exact h (by simp [e])
  | cons p rest ih =>
    intro cur g hg
    by_cases h : isBoundaryText (getText p)
    · simp [groupGo, h] at hg
      rcases hg with hg | hg
      · subst hg; simp
      · exact ih [] g hg
    · simp [groupGo, h] at hg
      exact ih (cur ++ [p]) g hg

/-- Every group except possibly the last ends with a boundary tag. -/
theorem groupGo_dropLast_boundary (getText : α → String) :
    ∀ (ps cur : List α), ∀ g ∈ (groupGo getText cur ps).dropLast,
      ∃ l, g.getLast? = some l ∧ isBoundaryText (getText l) := by
  intro ps
  induction ps with
  | nil =>
    intro cur g hg
    by_cases h : cur.isEmpty <;> simp [groupGo, h] at hg
  | cons p rest ih =>
    intro cur g hg
    by_cases h : isBoundaryText (getText p)
    · simp only [groupGo, h, if_pos] at hg
      rcases eq_or_ne (groupGo getText [] rest) [] with hr | hr
      · rw [hr] at hg
        simp at hg
      · rw [List.dropLast_cons_of_ne_nil hr] at hg
        rcases List.mem_cons.mp hg with hg | hg
        · subst hg
          exact ⟨p, by simp, h⟩
        · exact ih [] g hg
    · simp only [groupGo, h, if_neg, Bool.false_eq_true, not_false_iff] at hg
      exact ih (cur ++ [p]) g hg

/-- Claim C5: the batcher output is a partition of the input in order, its
batches are never empty, and every non-final batch ends with a unit whose
stripped text ends in `.`, `?` or `!`; trailing units are flushed as a final,
possibly boundary-less, batch (this is the flatten equation together with the
non-final boundary property). -/
theorem c5_batcher_partition (getText : α → String) (p_tags : List α) :
    (group_navigable_strings getText p_tags).flatten = p_tags
    ∧ (∀ g ∈ group_navigable_strings getText p_tags, g ≠ [])
    ∧ (∀ g ∈ (group_navigable_strings getText p_tags).dropLast,
        ∃ l, g.getLast? = some l ∧ isBoundaryText (getText l)) :=
  ⟨groupGo_join getText p_tags [],
   groupGo_ne_nil getText p_tags [],
   groupGo_dropLast_boundary getText p_tags []⟩

theorem c5_batcher_partition_witness :
    (group_navigable_strings id ["He came.", "then"]).flatten = ["He came.", "then"]
    ∧ (["He came."] ≠ ([] : List String))
    ∧ (∃ l, (["He came."] : List String).getLast? = some l
        ∧ isBoundaryText (id l)) := by
  refine ⟨(c5_batcher_partition id ["He came.", "then"]).1,
          (c5_batcher_partition id ["He came.", "then"]).2.1 ["He came."] ?_,
          (c5_batcher_partition id ["He came.", "then"]).2.2 ["He came."] ?_⟩
  · decide
  · decide

/-! ## Chunking and string helpers shared by the two LLM calls -/

/-- Python's `str.strip()` on the character list: drop whitespace from both
ends. -/
def stripChars (l : List Char) : List Char :=
  ((l.dropWhile Char.isWhitespace).reverse.dropWhile Char.isWhitespace).reverse

/-- Python's `s.strip()`; models `p_tag.decode_contents().strip()` applied to a
paragraph's inner HTML. -/
def pyStrip (s : String) : String := String.mk (stripChars s.data)

/-- `f"<string>{inner_html}</string>"` where `inner_html` is the stripped inner
HTML of one paragraph. -/
def stringWrap (p : String) : String := "<string>" ++ pyStrip p ++ "</string>"

/-- `CHUNK_SIZE = 10` (both llm modules). -/
def CHUNK_SIZE : Nat := 10

/-- The slices produced by `for start_index in range(0, len(paragraphs),
CHUNK_SIZE): chunk = paragraphs[start_index : start_index + CHUNK_SIZE]`. -/
def chunksOf10 (l : List α) : List (List α) :=
  (List.range ((l.length + (CHUNK_SIZE - 1)) / CHUNK_SIZE)).map
    (fun i => (l.drop (CHUNK_SIZE * i)).take CHUNK_SIZE)

/-! ## `should_transform` (llm/should_transform.py, lines 105-170)

The remote exchange of one chunk (POST, provider response parser,
`extract_tag(val, "should_transform")`) is modelled by an oracle
`dec : List String → DecisionTag` from the chunk's formatted
`<string>...</string>` lines to the parsed tag value. -/

/-- Result of `extract_tag(val, "should_transform")` compared against the
literals `"true"` and `"false"`; `tagOther` covers every other string
(including the `""` that `extract_tag` yields when no tag is present). -/
inductive DecisionTag where
  | tagTrue
  | tagFalse
  | tagOther
deriving DecidableEq, Repr

/-- Chunk loop of `should_transform` (lines 120-170).  Each iteration makes one
remote call and then returns in every branch: `return True` on `"true"`,
`return False` on `"false"`, and the unconditional trailing `return True`
otherwise — so the remaining chunks are never reached.  The second component
counts remote calls. -/
def shouldTransformGo (dec : List String → DecisionTag) :
    List (List String) → Option Bool × Nat
  | [] => (none, 0)
  | chunk :: _rest =>
    match dec (chunk.map stringWrap) with
    | DecisionTag.tagTrue => (some true, 1)
    | DecisionTag.tagFalse => (some false, 1)
    | DecisionTag.tagOther => (some true, 1)

/-- `should_transform`: chunk the paragraphs at `CHUNK_SIZE` and run the loop.
The `Option Bool` is the returned value; `none` is Python's implicit `None`
when the loop body never runs. -/
def should_transform (dec : List String → DecisionTag) (paragraphs : List String) :
    Option Bool × Nat :=
  shouldTransformGo dec (chunksOf10 paragraphs)

/-- Failing input for claim C1: eleven paragraphs (two chunks); the decision
capability answers `false` for the first chunk and `true` for the second. -/
def c1Paragraphs : List String := List.replicate 10 "old text" ++ ["And more."]

/-- Decision oracle for the C1 failing input: a full 10-line chunk decides
`false`, the 1-line tail chunk decides `true`. -/
def c1Oracle : List String → DecisionTag :=
  fun chunk => if chunk.length == 10 then DecisionTag.tagFalse else DecisionTag.tagTrue

/-- Claim C1 (code bug): on the failing input the second chunk's decision is
true-equivalent, yet `should_transform` returns `False` after a single remote
call — the first chunk's `false` ends the whole-batch decision and no later
chunk is consulted, contradicting the claimed any-chunk-true semantics. -/
theorem c1_should_transform_early_return :
    c1Oracle (((chunksOf10 c1Paragraphs).getD 1 []).map stringWrap) = DecisionTag.tagTrue
    ∧ should_transform c1Oracle c1Paragraphs = (some false, 1) := by
  decide

/-- Claim C10: with an empty paragraph list the chunk loop never executes, no
remote call is made, and `should_transform` returns Python's `None` — not an
explicit boolean decision. -/
theorem c10_should_transform_empty (dec : List String → DecisionTag) :
    should_transform dec [] = (none, 0)
    ∧ ∀ b : Bool, (should_transform dec []).1 ≠ some b := by
  exact ⟨rfl, fun b => by simp [should_transform, chunksOf10, shouldTransformGo, CHUNK_SIZE]⟩

/-! ## `transform_content` (llm/transform_content.py, lines 161-323)

The remote exchange of one chunk (POST, provider response parser,
`extract_tags(val, "string")`) is modelled by a `Rewriter` oracle from the
chunk's formatted `<string>...</string>` lines, the current attempt counter
and the accumulated retry feedback to the parsed list of replacement strings.
The accumulated `additional_prompt` is modelled structurally as the list of
mismatch records it contains (each record holds the malformed output and the
expected/actual counts, exactly the data interpolated into the source's
f-string).  The result is the final content of the paragraphs that were
passed in (the source mutates the tags in place and returns `None`), or the
terminal mismatch error. -/

/-- One `<attempt>` block of the accumulated `additional_prompt`: the
malformed output, the number of paragraphs sent (`meaningful_chunk_count`)
and the number of strings that came back. -/
structure Feedback where
  prevOutput : List String
  expected : Nat
  actual : Nat
deriving DecidableEq, Repr

/-- The rewrite capability: formatted chunk lines → attempt → accumulated
feedback → parsed replacement strings. -/
abbrev Rewriter := List String → Nat → List Feedback → List String

/-- `formatted_paragraphs` of one chunk: paragraphs whose stripped inner HTML
is empty are skipped (`if not inner_html: continue`); the rest are wrapped in
`<string>` tags.  Its length is `meaningful_chunk_count`. -/
def formatChunk (chunk : List String) : List String :=
  (chunk.filter (fun p => !(pyStrip p).isEmpty)).map stringWrap

/-- The mismatch record appended to `additional_prompt` on a retry. -/
def mismatchFeedback (formatted reps : List String) : Feedback :=
  Feedback.mk reps formatted.length reps.length

/-- Replacement loop (lines 292-309): walk the chunk, leave paragraphs with
empty stripped content untouched, and give each other paragraph the next
replacement string in order. -/
def applyReps : List String → List String → List String
  | [], _ => []
  | p :: ps, reps =>
    if (pyStrip p).isEmpty then p :: applyReps ps reps
    else
      match reps with
      | [] => p :: applyReps ps []
      | r :: rs => r :: applyReps ps rs

/-- `transform_content`: the chunk loop with count-mismatch retry.  Mirrors
the source control flow: per chunk, skip if nothing meaningful; on a count
mismatch with `attempt < 3`, `return` the recursive call on *that chunk
alone* with `attempt + 1` and the extended feedback (the `return` makes the
remaining chunks unreachable); on a mismatch with `attempt >= 3`, raise the
terminal error; on a match, apply the replacements and continue with the next
chunk. -/
def transform_content (rw : Rewriter) (paragraphs : List String) (attempt : Nat)
    (additional_prompt : List Feedback) : Except String (List String) :=
  if h0 : paragraphs.isEmpty then Except.ok []
  else
    let chunk := paragraphs.take CHUNK_SIZE
    let rest := paragraphs.drop CHUNK_SIZE
    let formatted := formatChunk chunk
    if formatted.isEmpty then
      (transform_content rw rest attempt additional_prompt).map (fun t => chunk ++ t)
    else
      let reps := rw formatted attempt additional_prompt
      if h1 : reps.length ≠ formatted.length ∧ attempt < 3 then
        (transform_content rw chunk (attempt + 1)
            (additional_prompt ++ [mismatchFeedback formatted reps])).map
          (fun c => c ++ rest)
      else if reps.length ≠ formatted.length ∧ 3 ≤ attempt then
        Except.error "Failed to transform content after 3 attempts"
      else
        (transform_content rw rest attempt additional_prompt).map
          (fun t => applyReps chunk reps ++ t)
termination_by (4 - attempt) + paragraphs.length
decreasing_by
  all_goals
    try have hlt : attempt < 3 := h1.2
  all_goals
    have hne : paragraphs ≠ [] := fun e => h0 (by simp [e])
    have hp : 0 < paragraphs.length := List.length_pos.mpr hne
    simp only [List.length_drop, List.length_take, CHUNK_SIZE]
    omega

theorem isEmpty_eq_false_of_ne_nil {l : List α} (h : l ≠ []) : l.isEmpty = false := by
  cases l with
  | nil => exact absurd rfl h
  | cons a t => rfl

/-- Loop exhausted: no paragraphs, nothing mutated, `None` returned. -/
theorem transform_content_nil (rw : Rewriter) (attempt : Nat) (fb : List Feedback) :
    transform_content rw [] attempt fb = Except.ok [] := by
  rw [transform_content.eq_def]
  simp

/-- A chunk with no meaningful paragraph is skipped (`continue`) untouched. -/
theorem transform_content_skip (rw : Rewriter) (paragraphs : List String)
    (attempt : Nat) (fb : List Feedback)
    (hne : paragraphs ≠ [])
    (hfm : formatChunk (paragraphs.take CHUNK_SIZE) = []) :
    transform_content rw paragraphs attempt fb
      = (transform_content rw (paragraphs.drop CHUNK_SIZE) attempt fb).map
          (fun t => paragraphs.take CHUNK_SIZE ++ t) := by
  rw [transform_content.eq_def]
  simp [isEmpty_eq_false_of_ne_nil hne, hfm]

/-- Count mismatch while `attempt < 3`: the whole call returns the recursive
call on the current chunk alone, with `attempt + 1` and the feedback extended
by the mismatch record; the remaining paragraphs are appended untouched. -/
theorem transform_content_retry (rw : Rewriter) (paragraphs : List String)
    (attempt : Nat) (fb : List Feedback)
    (hne : paragraphs ≠ [])
    (hfm : formatChunk (paragraphs.take CHUNK_SIZE) ≠ [])
    (hmm : (rw (formatChunk (paragraphs.take CHUNK_SIZE)) attempt fb).length
            ≠ (formatChunk (paragraphs.take CHUNK_SIZE)).length)
    (ha : attempt < 3) :
    transform_content rw paragraphs attempt fb
      = (transform_content rw (paragraphs.take CHUNK_SIZE) (attempt + 1)
          (fb ++ [mismatchFeedback (formatChunk (paragraphs.take CHUNK_SIZE))
                    (rw (formatChunk (paragraphs.take CHUNK_SIZE)) attempt fb)])).map
          (fun c => c ++ paragraphs.drop CHUNK_SIZE) := by
  rw [transform_content.eq_def]
  simp [isEmpty_eq_false_of_ne_nil hne, isEmpty_eq_false_of_ne_nil hfm, hmm, ha]

/-- Count mismatch with `attempt ≥ 3`: the terminal mismatch error. -/
theorem transform_content_terminal (rw : Rewriter) (paragraphs : List String)
    (attempt : Nat) (fb : List Feedback)
    (hne : paragraphs ≠ [])
    (hfm : formatChunk (paragraphs.take CHUNK_SIZE) ≠ [])
    (hmm : (rw (formatChunk (paragraphs.take CHUNK_SIZE)) attempt fb).length
            ≠ (formatChunk (paragraphs.take CHUNK_SIZE)).length)
    (ha : 3 ≤ attempt) :
    transform_content rw paragraphs attempt fb
      = Except.error "Failed to transform content after 3 attempts" := by
  have ha' : ¬ attempt < 3 := Nat.not_lt.mpr ha
  rw [transform_content.eq_def]
  simp [isEmpty_eq_false_of_ne_nil hne, isEmpty_eq_false_of_ne_nil hfm, hmm, ha, ha']

/-- Matching count: the chunk's paragraphs are replaced and the loop moves on
to the remaining paragraphs with the same attempt counter and feedback. -/
theorem transform_content_match (rw : Rewriter) (paragraphs : List String)
    (attempt : Nat) (fb : List Feedback)
    (hne : paragraphs ≠ [])
    (hfm : formatChunk (paragraphs.take CHUNK_SIZE) ≠ [])
    (hok : (rw (formatChunk (paragraphs.take CHUNK_SIZE)) attempt fb).length
            = (formatChunk (paragraphs.take CHUNK_SIZE)).length) :
    transform_content rw paragraphs attempt fb
      = (transform_content rw (paragraphs.drop CHUNK_SIZE) attempt fb).map
          (fun t => applyReps (paragraphs.take CHUNK_SIZE)
              (rw (formatChunk (paragraphs.take CHUNK_SIZE)) attempt fb) ++ t) := by
  rw [transform_content.eq_def]
  simp [isEmpty_eq_false_of_ne_nil hne, isEmpty_eq_false_of_ne_nil hfm, hok]

/-- The feedback accumulated across the mismatch retries of one chunk:
`fbSeq rw f fb0 a` is the `additional_prompt` in force at attempt `a`, built
by appending one mismatch record per earlier failed attempt. -/
def fbSeq (rw : Rewriter) (formatted : List String) (fb0 : List Feedback) :
    Nat → List Feedback
  | 0 => fb0
  | a + 1 =>
    fbSeq rw formatted fb0 a
      ++ [mismatchFeedback formatted (rw formatted a (fbSeq rw formatted fb0 a))]

/-- For a single chunk (at most `CHUNK_SIZE` paragraphs) a mismatch below the
retry cap steps to the same chunk at `attempt + 1` with the extended feedback. -/
theorem transformChunk_step (rw : Rewriter) (chunk : List String) (a : Nat)
    (fb : List Feedback)
    (hlen : chunk.length ≤ CHUNK_SIZE) (hfm : formatChunk chunk ≠ [])
    (hmm : (rw (formatChunk chunk) a fb).length ≠ (formatChunk chunk).length)
    (ha : a < 3) :
    transform_content rw chunk a fb
      = transform_content rw chunk (a + 1)
          (fb ++ [mismatchFeedback (formatChunk chunk) (rw (formatChunk chunk) a fb)]) := by
  have ht : chunk.take CHUNK_SIZE = chunk := List.take_of_length_le hlen
  have hd : chunk.drop CHUNK_SIZE = [] := List.drop_eq_nil_of_le hlen
  have hne : chunk ≠ [] := by
    intro e
    rw [e] at hfm
    exact hfm rfl
  rw [transform_content_retry rw chunk a fb hne (by rwa [ht]) (by rwa [ht]) ha, ht, hd]
  cases transform_content rw chunk (a + 1)
      (fb ++ [mismatchFeedback (formatChunk chunk) (rw (formatChunk chunk) a fb)]) with
  | ok v => simp [Except.map]
  | error e => simp [Except.map]

/-- Single chunk, mismatch at or past the cap: terminal error. -/
theorem transformChunk_terminal (rw : Rewriter) (chunk : List String) (a : Nat)
    (fb : List Feedback)
    (hlen : chunk.length ≤ CHUNK_SIZE) (hfm : formatChunk chunk ≠ [])
    (hmm : (rw (formatChunk chunk) a fb).length ≠ (formatChunk chunk).length)
    (ha : 3 ≤ a) :
    transform_content rw chunk a fb
      = Except.error "Failed to transform content after 3 attempts" := by
  have ht : chunk.take CHUNK_SIZE = chunk := List.take_of_length_le hlen
  have hne : chunk ≠ [] := by
    intro e
    rw [e] at hfm
    exact hfm rfl
  exact transform_content_terminal rw chunk a fb hne (by rwa [ht]) (by rwa [ht]) ha

/-- Single chunk, matching count: the replacements are applied. -/
theorem transformChunk_accept (rw : Rewriter) (chunk : List String) (a : Nat)
    (fb : List Feedback)
    (hlen : chunk.length ≤ CHUNK_SIZE) (hfm : formatChunk chunk ≠ [])
    (hok : (rw (formatChunk chunk) a fb).length = (formatChunk chunk).length) :
    transform_content rw chunk a fb
      = Except.ok (applyReps chunk (rw (formatChunk chunk) a fb)) := by
  have ht : chunk.take CHUNK_SIZE = chunk := List.take_of_length_le hlen
  have hd : chunk.drop CHUNK_SIZE = [] := List.drop_eq_nil_of_le hlen
  have hne : chunk ≠ [] := by
    intro e
    rw [e] at hfm
    exact hfm rfl
  rw [transform_content_match rw chunk a fb hne (by rwa [ht]) (by rwa [ht]), ht, hd,
    transform_content_nil]
  simp [Except.map]

/-- Characterization of one chunk under three initial mismatches: the chunk is
retried at attempts 1, 2, 3 with accumulating feedback, and the outcome is
decided entirely by the capability's answer at attempt 3. -/
theorem transformChunk_run (rw : Rewriter) (chunk : List String) (fb0 : List Feedback)
    (hlen : chunk.length ≤ CHUNK_SIZE) (hfm : formatChunk chunk ≠ [])
    (hmm : ∀ a, a < 3 →
      (rw (formatChunk chunk) a (fbSeq rw (formatChunk chunk) fb0 a)).length
        ≠ (formatChunk chunk).length) :
    transform_content rw chunk 0 fb0
      = if (rw (formatChunk chunk) 3 (fbSeq rw (formatChunk chunk) fb0 3)).length
            = (formatChunk chunk).length
        then Except.ok
          (applyReps chunk (rw (formatChunk chunk) 3 (fbSeq rw (formatChunk chunk) fb0 3)))
        else Except.error "Failed to transform content after 3 attempts" := by
  have step : ∀ a, a < 3 →
      transform_content rw chunk a (fbSeq rw (formatChunk chunk) fb0 a)
        = transform_content rw chunk (a + 1) (fbSeq rw (formatChunk chunk) fb0 (a + 1)) := by
    intro a ha
    rw [transformChunk_step rw chunk a (fbSeq rw (formatChunk chunk) fb0 a) hlen hfm
      (hmm a ha) ha]
    rfl
  have chain : transform_content rw chunk 0 fb0
      = transform_content rw chunk 3 (fbSeq rw (formatChunk chunk) fb0 3) := by
    have e0 := step 0 (by omega)
    have e1 := step 1 (by omega)
    have e2 := step 2 (by omega)
    calc transform_content rw chunk 0 fb0
        = transform_content rw chunk 1 (fbSeq rw (formatChunk chunk) fb0 1) := e0
      _ = transform_content rw chunk 2 (fbSeq rw (formatChunk chunk) fb0 2) := e1
      _ = transform_content rw chunk 3 (fbSeq rw (formatChunk chunk) fb0 3) := e2
  rw [chain]
  by_cases h : (rw (formatChunk chunk) 3 (fbSeq rw (formatChunk chunk) fb0 3)).length
      = (formatChunk chunk).length
  · rw [if_pos h]
    exact transformChunk_accept rw chunk 3 _ hlen hfm h
  · rw [if_neg h]
    exact transformChunk_terminal rw chunk 3 _ hlen hfm h (by omega)

theorem fbSeq_congr (rw rw' : Rewriter) (f : List String) (fb0 : List Feedback)
    (hag : ∀ g a fb, a ≤ 3 → rw' g a fb = rw g a fb) :
    ∀ a, a ≤ 3 → fbSeq rw' f fb0 a = fbSeq rw f fb0 a := by
  intro a
  induction a with
  | zero => intro; rfl
  | succ n ih =>
    intro hn
    have hn' : n ≤ 3 := by omega
    simp only [fbSeq, ih hn', hag f n (fbSeq rw f fb0 n) (by omega)]

/-- Claim C2: for a chunk whose first three attempts (0, 1, 2) all return a
mismatched replacement count, each mismatch below the cap retries the same
chunk with `attempt + 1` and the feedback extended by that attempt's mismatch
record (`fbSeq`); the outcome is then decided at attempt counter exactly 3 —
a mismatch there is the terminal error, a match there is accepted — and the
capability is never consulted at any attempt counter above 3 (any rewriter
that agrees with `rw` up to attempt 3 produces the same result). -/
theorem c2_mismatch_retry_cap (rw : Rewriter) (chunk : List String) (fb0 : List Feedback)
    (hlen : chunk.length ≤ CHUNK_SIZE) (hfm : formatChunk chunk ≠ [])
    (hmm : ∀ a, a < 3 →
      (rw (formatChunk chunk) a (fbSeq rw (formatChunk chunk) fb0 a)).length
        ≠ (formatChunk chunk).length) :
    ((rw (formatChunk chunk) 3 (fbSeq rw (formatChunk chunk) fb0 3)).length
        ≠ (formatChunk chunk).length →
      transform_content rw chunk 0 fb0
        = Except.error "Failed to transform content after 3 attempts")
    ∧ ((rw (formatChunk chunk) 3 (fbSeq rw (formatChunk chunk) fb0 3)).length
        = (formatChunk chunk).length →
      transform_content rw chunk 0 fb0
        = Except.ok (applyReps chunk
            (rw (formatChunk chunk) 3 (fbSeq rw (formatChunk chunk) fb0 3))))
    ∧ (∀ rw' : Rewriter, (∀ g a fb, a ≤ 3 → rw' g a fb = rw g a fb) →
      transform_content rw' chunk 0 fb0 = transform_content rw chunk 0 fb0) := by
  refine ⟨fun h => ?_, fun h => ?_, fun rw' hag => ?_⟩
  · rw [transformChunk_run rw chunk fb0 hlen hfm hmm, if_neg h]
  · rw [transformChunk_run rw chunk fb0 hlen hfm hmm, if_pos h]
  · have hfb := fbSeq_congr rw rw' (formatChunk chunk) fb0 hag
    have hmm' : ∀ a, a < 3 →
        (rw' (formatChunk chunk) a (fbSeq rw' (formatChunk chunk) fb0 a)).length
          ≠ (formatChunk chunk).length := by
      intro a ha
      rw [hfb a (by omega), hag (formatChunk chunk) a _ (by omega)]
      exact hmm a ha
    rw [transformChunk_run rw chunk fb0 hlen hfm hmm,
      transformChunk_run rw' chunk fb0 hlen hfm hmm',
      hfb 3 (by omega), hag (formatChunk chunk) 3 _ (by omega)]

theorem c2_mismatch_retry_cap_witness :
    (["old line"] : List String).length ≤ CHUNK_SIZE
    ∧ formatChunk ["old line"] ≠ []
    ∧ transform_content (fun _ _ _ => []) ["old line"] 0 []
        = Except.error "Failed to transform content after 3 attempts" := by
  refine ⟨by decide, by decide, ?_⟩
  exact (c2_mismatch_retry_cap (fun _ _ _ => []) ["old line"] [] (by decide) (by decide)
    (fun a _ => by
      show ([] : List String).length ≠ (formatChunk ["old line"]).length
      decide)).1
    (by
      show ([] : List String).length ≠ (formatChunk ["old line"]).length
      decide)

/-- Failing input for claim C3: an 11-paragraph batch, i.e. two chunks (ten
paragraphs and one). -/
def c3Paragraphs : List String := List.replicate 10 "a" ++ ["b"]

/-- Rewrite capability for the C3 failing input: the full 10-line chunk gets
9 strings back on attempt 0 (count mismatch) and 10 strings back on every
later attempt; a smaller chunk always gets the matching count back. -/
def c3Rewriter : Rewriter := fun formatted attempt _ =>
  if formatted.length == 10 then
    if attempt == 0 then List.replicate 9 "x" else List.replicate 10 "y"
  else
    List.replicate formatted.length "z"

/-- Claim C3 (code bug): after the first chunk's mismatch retry succeeds, the
call returns with the second chunk never sent — the final batch content keeps
`"b"` untransformed — even though the capability would have answered the
second chunk with a matching count.  The claimed 1:1 reconstruction of the
whole batch fails. -/
theorem c3_retry_skips_remaining_chunks :
    transform_content c3Rewriter c3Paragraphs 0 []
      = Except.ok (List.replicate 10 "y" ++ ["b"])
    ∧ (c3Rewriter (formatChunk ["b"]) 0 []).length = (formatChunk ["b"]).length := by
  constructor
  · rw [transform_content_retry c3Rewriter c3Paragraphs 0 [] (by decide) (by decide)
      (by decide) (by decide)]
    rw [transformChunk_accept c3Rewriter (c3Paragraphs.take CHUNK_SIZE) 1
      ([] ++ [mismatchFeedback (formatChunk (c3Paragraphs.take CHUNK_SIZE))
        (c3Rewriter (formatChunk (c3Paragraphs.take CHUNK_SIZE)) 0 [])])
      (by decide) (by decide) (by decide)]
    simp only [Except.map, Except.ok.injEq]
    decide
  · decide

/-! ## Per-batch driver `process_paragraph_group` (transform_text.py, 80-109)

The inner coroutine acquires the rate limiter, asks `should_transform`, and
on a truthy decision runs `transform_content` with the configured
provider/model; any exception there is caught once and the same batch is
re-sent with the fixed secondary pair `("together",
"meta-llama/Llama-3.3-70B-Instruct-Turbo")`.  The whole coroutine is wrapped
in the bare `@retry()` decorator of the `retry` package, whose default is
`tries=-1`: every `Exception` is caught and the body is re-run forever, with
no propagation.  The capability outcomes are oracles indexed by the decorator
round, so persistent failure is expressible. -/

/-- A provider/model pair passed to `transform_content`. -/
structure ProviderCall where
  provider : String
  model : String
deriving DecidableEq, Repr

/-- The hard-coded fallback pair of the `except` branch (lines 100-105). -/
def fallbackProviderCall : ProviderCall :=
  ProviderCall.mk "together" "meta-llama/Llama-3.3-70B-Instruct-Turbo"

/-- One undecorated run of `process_paragraph_group`'s body in decorator
round `round`: admission, decision, then transform with single fallback.
`dec round` is the truthiness of `should_transform`; `primary round` /
`secondary round` tell whether the two `transform_content` calls succeed.
Returns whether the body completed without raising, and the list of
`transform_content` provider/model calls it made. -/
def process_paragraph_group_once (dec primary secondary : Nat → Bool)
    (pm : ProviderCall) (round : Nat) : Bool × List ProviderCall :=
  if dec round then
    if primary round then (true, [pm])
    else if secondary round then (true, [pm, fallbackProviderCall])
    else (false, [pm, fallbackProviderCall])
  else (true, [])

/-- The `retry` package's decorator with its defaults (`tries=-1`, no delay):
every exception from the body is caught and the body is re-run; only success
exits.  `fuel` bounds how many rounds we observe; `none` means the decorated
call is still looping after `fuel` failing rounds — there is no error outcome
at all, because the decorator never re-raises.  The second component
accumulates the calls of all observed rounds. -/
def retryLoop (body : Nat → Bool × List ProviderCall) :
    Nat → Nat → Option Nat × List ProviderCall
  | _, 0 => (none, [])
  | round, fuel + 1 =>
    let r := body round
    if r.1 then (some round, r.2)
    else
      let rest := retryLoop body (round + 1) fuel
      (rest.1, r.2 ++ rest.2)

/-- The decorated `process_paragraph_group` observed for `fuel` rounds. -/
def process_paragraph_group (dec primary secondary : Nat → Bool)
    (pm : ProviderCall) (fuel : Nat) : Option Nat × List ProviderCall :=
  retryLoop (process_paragraph_group_once dec primary secondary pm) 0 fuel

/-- If the body fails in every round (and makes `k` capability calls per
round), the decorated loop never produces an outcome — it is still retrying
after any number of rounds — and the body has been re-run once per round. -/
theorem retryLoop_all_fail (body : Nat → Bool × List ProviderCall) (k : Nat)
    (hfail : ∀ r, (body r).1 = false)
    (hlen : ∀ r, (body r).2.length = k) :
    ∀ fuel round, (retryLoop body round fuel).1 = none
      ∧ (retryLoop body round fuel).2.length = k * fuel := by
  intro fuel
  induction fuel with
  | zero => intro round; exact ⟨rfl, by simp [retryLoop]⟩
  | succ n ih =>
    intro round
    have h := hfail round
    constructor
    · simp only [retryLoop, h, Bool.false_eq_true, if_false]
      exact (ih (round + 1)).1
    · simp only [retryLoop, h, Bool.false_eq_true, if_false, List.length_append]
      rw [hlen round, (ih (round + 1)).2]
      ring

/-- Claim C9: the bare `@retry()` decorator catches every exception of the
batch body — including a terminal failure after the secondary-provider
fallback — and re-runs the whole body (admission, decision, transform with
fallback) from the start, without limit.  The decorated loop's outcome type
has no error case at all, and under a capability that always fails the loop
is still retrying after every number of rounds `fuel` (never terminates),
having re-attempted the batch once per round (two transform calls each). -/
theorem c9_unbounded_retry_never_propagates (pm : ProviderCall) (fuel : Nat) :
    (process_paragraph_group (fun _ => true) (fun _ => false) (fun _ => false) pm fuel).1
      = none
    ∧ (process_paragraph_group (fun _ => true) (fun _ => false) (fun _ => false) pm fuel).2.length
      = 2 * fuel :=
  retryLoop_all_fail
    (process_paragraph_group_once (fun _ => true) (fun _ => false) (fun _ => false) pm) 2
    (fun _ => rfl) (fun _ => rfl) fuel 0

/-- Counterexample to claim C4: with both providers failing in every round,
after three decorator rounds there is still no propagated outcome and the
batch has been attempted three times (six transform calls: primary then
fallback, three times over).  The secondary failure is swallowed by the
unbounded retry decorator rather than propagating to the caller as terminal,
and further retries of the batch do occur. -/
theorem c4_no_terminal_propagation_counterexample :
    (process_paragraph_group (fun _ => true) (fun _ => false) (fun _ => false)
        (ProviderCall.mk "openai" "gpt-4o-mini") 3).1 = none
    ∧ (process_paragraph_group (fun _ => true) (fun _ => false) (fun _ => false)
        (ProviderCall.mk "openai" "gpt-4o-mini") 3).2
      = [ProviderCall.mk "openai" "gpt-4o-mini", fallbackProviderCall,
         ProviderCall.mk "openai" "gpt-4o-mini", fallbackProviderCall,
         ProviderCall.mk "openai" "gpt-4o-mini", fallbackProviderCall] := by
  decide

/-- Claim C4, amended: within one decorator round, a primary-provider failure
triggers exactly one whole-batch retry with the fixed secondary pair
`("together", "meta-llama/Llama-3.3-70B-Instruct-Turbo")`, and a successful
secondary completes the round; but if the secondary also fails, the error
does not propagate to the caller — the enclosing unbounded retry decorator
re-attempts the entire batch indefinitely. -/
theorem c4_fallback_once_then_unbounded_retry (dec primary secondary : Nat → Bool)
    (pm : ProviderCall) (round : Nat)
    (hdec : dec round = true) (hp : primary round = false) :
    (process_paragraph_group_once dec primary secondary pm round).2
      = [pm, fallbackProviderCall]
    ∧ (secondary round = true →
        (process_paragraph_group_once dec primary secondary pm round).1 = true)
    ∧ ((∀ r, dec r = true) → (∀ r, primary r = false) → (∀ r, secondary r = false) →
        ∀ fuel, (process_paragraph_group dec primary secondary pm fuel).1 = none) := by
  refine ⟨?_, fun hs => ?_, fun h1 h2 h3 fuel => ?_⟩
  · by_cases hs : secondary round
      <;> simp [process_paragraph_group_once, hdec, hp, hs]
  · simp [process_paragraph_group_once, hdec, hp, hs]
  · exact (retryLoop_all_fail (process_paragraph_group_once dec primary secondary pm) 2
      (fun r => by simp [process_paragraph_group_once, h1 r, h2 r, h3 r])
      (fun r => by simp [process_paragraph_group_once, h1 r, h2 r, h3 r]) fuel 0).1

theorem c4_fallback_once_then_unbounded_retry_witness :
    (process_paragraph_group_once (fun _ => true) (fun _ => false) (fun _ => false)
        (ProviderCall.mk "openai" "gpt-4o-mini") 0).2
      = [ProviderCall.mk "openai" "gpt-4o-mini", fallbackProviderCall] :=
  (c4_fallback_once_then_unbounded_retry (fun _ => true) (fun _ => false) (fun _ => false)
    (ProviderCall.mk "openai" "gpt-4o-mini") 0 rfl rfl).1

/-! ## Admission controller `RateLimiter` (rate_limiter.py)

The limiter is modelled as a transition system over discrete time.  A state
carries the clock, the deque `self.timestamps`, the multiset of *all*
timestamps ever recorded (`history`, for stating the sliding-window
property), and the number of concurrency slots currently held by the
semaphore.  The steps are exactly the atomic effects of the source: time
passing, `parallel_semaphore.acquire`/`release`, and the two outcomes of one
locked iteration of `_wait_for_slot` — either the pruned deque has room and
the caller's timestamp is recorded, or it is full and the caller just prunes,
computes `wait_time = window_size - (now - timestamps[0])` and sleeps,
re-checking on a later step rather than assuming slot ownership. -/

/-- Constructor arguments of `RateLimiter.__init__` (`window_size` is fixed
to 60 seconds in the source). -/
structure RLConfig where
  calls_per_minute : Nat
  max_parallel : Nat
  window_size : Nat

/-- One state of the rate limiter: the clock, every timestamp ever appended
(in append order), the current deque `self.timestamps`, and the held
concurrency slots. -/
structure RLState where
  now : Nat
  history : List Nat
  timestamps : List Nat
  held : Nat

/-- The pruning loop `while self.timestamps and (now - self.timestamps[0]) >=
self.window_size: self.timestamps.popleft()`: drop the leading timestamps
that have aged out of the window. -/
def prune (w now : Nat) (ts : List Nat) : List Nat :=
  ts.dropWhile (fun t => decide (t + w ≤ now))

/-- `wait_time = self.window_size - (now - self.timestamps[0])`, computed on
the pruned deque (the prune runs first inside the same locked section). -/
def wait_time (cfg : RLConfig) (s : RLState) : Nat :=
  cfg.window_size - (s.now - (prune cfg.window_size s.now s.timestamps).headD 0)

/-- Atomic transitions of one `RateLimiter` instance. -/
inductive RLStep (cfg : RLConfig) : RLState → RLState → Prop where
  | tick (s : RLState) (dt : Nat) :
      RLStep cfg s (RLState.mk (s.now + dt) s.history s.timestamps s.held)
  | semAcquire (s : RLState) (h : s.held < cfg.max_parallel) :
      RLStep cfg s (RLState.mk s.now s.history s.timestamps (s.held + 1))
  | semRelease (s : RLState) (h : 0 < s.held) :
      RLStep cfg s (RLState.mk s.now s.history s.timestamps (s.held - 1))
  | recordCall (s : RLState)
      (h : (prune cfg.window_size s.now s.timestamps).length < cfg.calls_per_minute) :
      RLStep cfg s (RLState.mk s.now (s.history ++ [s.now])
        (prune cfg.window_size s.now s.timestamps ++ [s.now]) s.held)
  | waitSlot (s : RLState)
      (h : cfg.calls_per_minute ≤ (prune cfg.window_size s.now s.timestamps).length) :
      RLStep cfg s (RLState.mk s.now s.history
        (prune cfg.window_size s.now s.timestamps) s.held)

/-- States reachable from a freshly constructed limiter. -/
inductive RLReachable (cfg : RLConfig) : RLState → Prop where
  | init : RLReachable cfg (RLState.mk 0 [] [] 0)
  | step {s s' : RLState} :
      RLReachable cfg s → RLStep cfg s s' → RLReachable cfg s'

/-- Number of recorded acquisition timestamps inside the half-open
window-sized interval starting at `a`. -/
def windowCount (w : Nat) (h : List Nat) (a : Nat) : Nat :=
  (h.filter (fun e => decide (a ≤ e) && decide (e < a + w))).length

/-- Inductive invariant of the limiter. -/
structure RLInv (cfg : RLConfig) (s : RLState) : Prop where
  held_le : s.held ≤ cfg.max_parallel
  sorted : List.Sorted (· ≤ ·) s.history
  bounded : ∀ e ∈ s.history, e ≤ s.now
  decomp : ∃ d, s.history = d ++ s.timestamps ∧ ∀ e ∈ d, e + cfg.window_size ≤ s.now
  window_ok : ∀ a, windowCount cfg.window_size s.history a ≤ cfg.calls_per_minute

theorem mem_prune {w now : Nat} {l : List Nat} {e : Nat} (he : e ∈ prune w now l) :
    e ∈ l :=
  List.Sublist.mem he (List.dropWhile_sublist _)

/-- In a sorted deque, every survivor of the prune is still inside the
window. -/
theorem prune_fresh {w now : Nat} {l : List Nat} (hs : List.Sorted (· ≤ ·) l) :
    ∀ e ∈ prune w now l, now < e + w := by
  induction l with
  | nil => intro e he; simp [prune] at he
  | cons x xs ih =>
    intro e he
    by_cases hx : x + w ≤ now
    · have hp : prune w now (x :: xs) = prune w now xs := by
        simp [prune, List.dropWhile_cons, hx]
      rw [hp] at he
      exact ih hs.of_cons e he
    · have hp : prune w now (x :: xs) = x :: xs := by
        simp [prune, List.dropWhile_cons, hx]
      rw [hp] at he
      rcases List.mem_cons.mp he with rfl | hmem
      · omega
      · have hxe : x ≤ e := (List.sorted_cons.mp hs).1 e hmem
        omega

theorem mem_takeWhile_old {w now : Nat} {l : List Nat} :
    ∀ e ∈ l.takeWhile (fun t => decide (t + w ≤ now)), e + w ≤ now := by
  intro e he
  simpa using List.mem_takeWhile_imp he

theorem RLInv_init (cfg : RLConfig) : RLInv cfg (RLState.mk 0 [] [] 0) := by
  refine ⟨Nat.zero_le _, by simp, by simp, ⟨[], rfl, by simp⟩, ?_⟩
  intro a
  simp [windowCount]

theorem RLInv_step (cfg : RLConfig) {s s' : RLState}
    (hinv : RLInv cfg s) (hstep : RLStep cfg s s') : RLInv cfg s' := by
  obtain ⟨hheld, hsort, hbound, ⟨d, hd, hold⟩, hwin⟩ := hinv
  have hts : s.timestamps.takeWhile (fun t => decide (t + cfg.window_size ≤ s.now))
      ++ prune cfg.window_size s.now s.timestamps = s.timestamps :=
    List.takeWhile_append_dropWhile _ s.timestamps
  cases hstep with
  | tick dt =>
    exact ⟨hheld, hsort, fun e he => le_trans (hbound e he) (Nat.le_add_right _ _),
      ⟨d, hd, fun e he => le_trans (hold e he) (Nat.le_add_right _ _)⟩, hwin⟩
  | semAcquire h => exact ⟨h, hsort, hbound, ⟨d, hd, hold⟩, hwin⟩
  | semRelease h =>
    exact ⟨le_trans (Nat.sub_le _ _) hheld, hsort, hbound, ⟨d, hd, hold⟩, hwin⟩
  | waitSlot h =>
    refine ⟨hheld, hsort, hbound,
      ⟨d ++ s.timestamps.takeWhile (fun t => decide (t + cfg.window_size ≤ s.now)),
        ?_, ?_⟩, hwin⟩
    · conv_lhs => rw [hd, ← hts]
      rw [List.append_assoc]
    · intro e he
      rcases List.mem_append.mp he with he | he
      · exact hold e he
      · exact mem_takeWhile_old e he
  | recordCall h =>
    refine ⟨hheld, ?_, ?_, ?_, ?_⟩
    · rw [List.Sorted, List.pairwise_append]
      refine ⟨hsort, by simp, fun x hx y hy => ?_⟩
      rw [List.mem_singleton] at hy
      subst hy
      exact hbound x hx
    · intro e he
      rcases List.mem_append.mp he with he | he
      · exact hbound e he
      · rw [List.mem_singleton] at he
        subst he
        exact le_refl _
    · refine
        ⟨d ++ s.timestamps.takeWhile (fun t => decide (t + cfg.window_size ≤ s.now)),
          ?_, ?_⟩
      · conv_lhs => rw [hd, ← hts]
        simp [List.append_assoc]
      · intro e he
        rcases List.mem_append.mp he with he | he
        · exact hold e he
        · exact mem_takeWhile_old e he
    · intro a
      unfold windowCount
      rw [List.filter_append]
      by_cases hnow : a ≤ s.now ∧ s.now < a + cfg.window_size
      · have hf1 : [s.now].filter
            (fun e => decide (a ≤ e) && decide (e < a + cfg.window_size)) = [s.now] := by
          simp [hnow.1, hnow.2]
        rw [hf1, List.length_append]
        have hfd : d.filter
            (fun e => decide (a ≤ e) && decide (e < a + cfg.window_size)) = [] := by
          refine List.filter_eq_nil_iff.mpr (fun e he => ?_)
          have hoe := hold e he
          simp only [Bool.and_eq_true, decide_eq_true_eq, not_and]
          intro h1 h2
          omega
        have hftw : (s.timestamps.takeWhile
              (fun t => decide (t + cfg.window_size ≤ s.now))).filter
            (fun e => decide (a ≤ e) && decide (e < a + cfg.window_size)) = [] := by
          refine List.filter_eq_nil_iff.mpr (fun e he => ?_)
          have hoe := mem_takeWhile_old e he
          simp only [Bool.and_eq_true, decide_eq_true_eq, not_and]
          intro h1 h2
          omega
        have hh : s.history
            = (d ++ s.timestamps.takeWhile
                (fun t => decide (t + cfg.window_size ≤ s.now)))
              ++ prune cfg.window_size s.now s.timestamps := by
          conv_lhs => rw [hd, ← hts]
          rw [List.append_assoc]
        have hdec : s.history.filter
              (fun e => decide (a ≤ e) && decide (e < a + cfg.window_size))
            = (prune cfg.window_size s.now s.timestamps).filter
              (fun e => decide (a ≤ e) && decide (e < a + cfg.window_size)) := by
          rw [hh, List.filter_append, List.filter_append, hfd, hftw]
          simp
        rw [hdec]
        simp only [List.length_singleton]
        have hle := List.length_filter_le
          (fun e => decide (a ≤ e) && decide (e < a + cfg.window_size))
          (prune cfg.window_size s.now s.timestamps)
        omega
      · have hf1 : [s.now].filter
            (fun e => decide (a ≤ e) && decide (e < a + cfg.window_size)) = [] := by
          by_cases h1 : a ≤ s.now
          · by_cases h2 : s.now < a + cfg.window_size
            · exact absurd ⟨h1, h2⟩ hnow
            · simp [h2]
          · simp [h1]
        rw [hf1, List.append_nil]
        exact hwin a

theorem RLInv_reachable (cfg : RLConfig) {s : RLState}
    (h : RLReachable cfg s) : RLInv cfg s := by
  induction h with
  | init => exact RLInv_init cfg
  | step hr hs ih => exact RLInv_step cfg ih hs

/-- Claim C6: in every reachable state of one `RateLimiter`, (i) no sliding
window-sized interval contains more than `calls_per_minute` recorded
acquisition timestamps, (ii) the held concurrency slots never exceed
`max_parallel`, and (iii) when the pruned window is full, the computed sleep
`wait_time = window_size - (now - timestamps[0])` ends exactly when the
oldest retained timestamp ages out of the window — the `waitSlot` step
records no timestamp and takes no slot, so the woken waiter re-checks. -/
theorem c6_admission_controller_invariants (cfg : RLConfig) (s : RLState)
    (h : RLReachable cfg s) :
    (∀ a, windowCount cfg.window_size s.history a ≤ cfg.calls_per_minute)
    ∧ s.held ≤ cfg.max_parallel
    ∧ (0 < cfg.calls_per_minute →
        cfg.calls_per_minute ≤ (prune cfg.window_size s.now s.timestamps).length →
        s.now + wait_time cfg s
          = (prune cfg.window_size s.now s.timestamps).headD 0 + cfg.window_size) := by
  obtain ⟨hheld, hsort, hbound, ⟨d, hd, hold⟩, hwin⟩ := RLInv_reachable cfg h
  refine ⟨hwin, hheld, fun hC hfull => ?_⟩
  have hts_sorted : List.Sorted (· ≤ ·) s.timestamps := by
    rw [hd, List.Sorted, List.pairwise_append] at hsort
    exact hsort.2.1
  have hne : prune cfg.window_size s.now s.timestamps ≠ [] := by
    intro e
    rw [e] at hfull
    simp at hfull
    omega
  obtain ⟨x, xs, hx⟩ : ∃ x xs, prune cfg.window_size s.now s.timestamps = x :: xs := by
    cases hq : prune cfg.window_size s.now s.timestamps with
    | nil => exact absurd hq hne
    | cons x xs => exact ⟨x, xs, rfl⟩
  have hmem : x ∈ prune cfg.window_size s.now s.timestamps := by
    rw [hx]
    exact List.mem_cons_self x xs
  have hfresh : s.now < x + cfg.window_size := prune_fresh hts_sorted x hmem
  have hb : x ≤ s.now := by
    refine hbound x ?_
    rw [hd]
    exact List.mem_append_right d (mem_prune hmem)
  unfold wait_time
  rw [hx]
  simp only [List.headD_cons]
  omega

theorem c6_admission_controller_invariants_witness :
    RLReachable (RLConfig.mk 4000 100 60) (RLState.mk 0 [0] [0] 0)
    ∧ ((∀ a, windowCount 60 [0] a ≤ 4000)
       ∧ (0 : Nat) ≤ 100
       ∧ ((0 : Nat) < 4000 →
           4000 ≤ (prune 60 0 [0]).length →
           0 + wait_time (RLConfig.mk 4000 100 60) (RLState.mk 0 [0] [0] 0)
             = (prune 60 0 [0]).headD 0 + 60)) := by
  have r : RLReachable (RLConfig.mk 4000 100 60) (RLState.mk 0 [0] [0] 0) :=
    RLReachable.step RLReachable.init
      (RLStep.recordCall (RLState.mk 0 [] [] 0) (by decide))
  exact ⟨r, c6_admission_controller_invariants (RLConfig.mk 4000 100 60)
    (RLState.mk 0 [0] [0] 0) r⟩

/-! ## Orchestrator `transform_epub` (transform_text.py, lines 154-248)

Two aspects are embedded.  First, the pre-scan loop (lines 189-204): each
`EpubHtml` item is read and parsed; on success it contributes its paragraph
count and joins `items_to_transform`, on an exception it is only logged; a
non-HTML item is added to the output book directly.  The output book then
receives the transformed items (lines 233-235).  Second, the progress
lifecycle (lines 206-231): `on_init_progress(total)` once before the tasks,
`on_update_progress(len(batch))` per finished batch, and
`on_complete_progress()` after `asyncio.gather` — which, with its default
`return_exceptions=False`, re-raises the first failed task's exception, so
the complete callback is skipped on the failure path.  Per-document updates
are laid out in one fixed task order; the claims verified here concern only
the init/complete events, which are schedule-independent. -/

/-- A container item: an HTML document (with whether `get_content` + parse
succeeds, and its paragraph count) or a non-HTML item. -/
inductive EpubItem where
  | htmlItem (ident : Nat) (readable : Bool) (paragraphs : Nat)
  | otherItem (ident : Nat)
deriving DecidableEq, Repr

def itemId : EpubItem → Nat
  | EpubItem.htmlItem i _ _ => i
  | EpubItem.otherItem i => i

def isReadableHtml : EpubItem → Bool
  | EpubItem.htmlItem _ r _ => r
  | EpubItem.otherItem _ => false

def isOtherItem : EpubItem → Bool
  | EpubItem.htmlItem _ _ _ => false
  | EpubItem.otherItem _ => true

/-- The pre-scan loop: returns `total_paragraphs`, `items_to_transform`, and
the non-HTML items copied straight into the new book.  An unreadable HTML
item is logged (`logger.error`) and joins neither list. -/
def prescan : List EpubItem → Nat × List EpubItem × List EpubItem
  | [] => (0, [], [])
  | EpubItem.htmlItem i r n :: rest =>
    let t := prescan rest
    if r then (n + t.1, EpubItem.htmlItem i r n :: t.2.1, t.2.2)
    else t
  | EpubItem.otherItem i :: rest =>
    let t := prescan rest
    (t.1, t.2.1, EpubItem.otherItem i :: t.2.2)

/-- An item of the output container: a transformed HTML document or a
directly copied non-HTML item. -/
inductive OutItem where
  | transformedItem (ident : Nat)
  | copiedItem (ident : Nat)
deriving DecidableEq, Repr

/-- The content items of the output book: the non-HTML items copied during
the pre-scan, then the transformed counterparts of `items_to_transform`. -/
def transform_epub_items (items : List EpubItem) : List OutItem :=
  ((prescan items).2.2.map (fun i => OutItem.copiedItem (itemId i)))
    ++ ((prescan items).2.1.map (fun i => OutItem.transformedItem (itemId i)))

theorem prescan_to_transform (items : List EpubItem) :
    (prescan items).2.1 = items.filter isReadableHtml := by
  induction items with
  | nil => rfl
  | cons i rest ih =>
    cases i with
    | htmlItem j r n =>
      cases r <;> simp [prescan, isReadableHtml, ih]
    | otherItem j => simp [prescan, isReadableHtml, ih]

theorem prescan_copied (items : List EpubItem) :
    (prescan items).2.2 = items.filter isOtherItem := by
  induction items with
  | nil => rfl
  | cons i rest ih =>
    cases i with
    | htmlItem j r n =>
      cases r <;> simp [prescan, isOtherItem, ih]
    | otherItem j => simp [prescan, isOtherItem, ih]

/-- Counterexample to claim C7: a container whose only document fails to read
produces an empty output item list — the unreadable document is *dropped*
from the output container, not copied as-is. -/
theorem c7_unreadable_dropped_counterexample :
    transform_epub_items [EpubItem.htmlItem 1 false 5] = [] := by
  decide

/-- Claim C7, amended: an unreadable document is logged and *omitted from the
output container*; the failure does not abort the run, and every other item
is unaffected — the output is exactly the copied non-HTML items followed by
the transformed readable HTML items. -/
theorem c7_unreadable_logged_and_dropped (items : List EpubItem) :
    transform_epub_items items
      = (items.filter isOtherItem).map (fun i => OutItem.copiedItem (itemId i))
        ++ (items.filter isReadableHtml).map (fun i => OutItem.transformedItem (itemId i)) := by
  rw [transform_epub_items, prescan_to_transform, prescan_copied]

/-- One document task: its batch sizes (one `on_update_progress(len(batch))`
per batch) and whether the task raises a terminal error. -/
structure DocTask where
  batches : List Nat
  fails : Bool
deriving DecidableEq, Repr

/-- The three progress callbacks of `transform_epub`. -/
inductive ProgressEvent where
  | initEvent (total : Nat)
  | updateEvent (delta : Nat)
  | completeEvent
deriving DecidableEq, Repr

/-- The pre-scan unit total passed to `on_init_progress`. -/
def totalUnits (docs : List DocTask) : Nat :=
  (docs.map (fun d => d.batches.sum)).sum

/-- Updates emitted by one document's pipeline, one per batch in order. -/
def docUpdates (d : DocTask) : List ProgressEvent :=
  d.batches.map ProgressEvent.updateEvent

/-- The callback trace of one `transform_epub` run: `on_init_progress` first,
then the batch updates of the gathered tasks, and `on_complete_progress`
only if no task raised — `asyncio.gather` re-raises the first failure before
line 230 is reached. -/
def transform_epub_events (docs : List DocTask) : List ProgressEvent :=
  ProgressEvent.initEvent (totalUnits docs)
    :: ((docs.map docUpdates).flatten
      ++ (if docs.all (fun d => !d.fails) then [ProgressEvent.completeEvent] else []))

def countEvents (p : ProgressEvent → Bool) (l : List ProgressEvent) : Nat :=
  (l.filter p).length

def isInitEvent : ProgressEvent → Bool
  | ProgressEvent.initEvent _ => true
  | _ => false

def isCompleteEvent : ProgressEvent → Bool
  | ProgressEvent.completeEvent => true
  | _ => false

theorem updates_filter_eq_nil (q : ProgressEvent → Bool) (docs : List DocTask)
    (hq : ∀ n, q (ProgressEvent.updateEvent n) = false) :
    ((docs.map docUpdates).flatten).filter q = [] := by
  refine List.filter_eq_nil_iff.mpr (fun e he => ?_)
  rw [List.mem_flatten] at he
  obtain ⟨l, hl, hel⟩ := he
  rw [List.mem_map] at hl
  obtain ⟨d, _, rfl⟩ := hl
  rw [docUpdates, List.mem_map] at hel
  obtain ⟨n, _, rfl⟩ := hel
  simp [hq n]

/-- Counterexample to claim C8: a run whose single document task fails
terminally emits no `onComplete` at all — `asyncio.gather` re-raises before
`on_complete_progress` is awaited — so "exactly once ... on the path where
some document task fails terminally" is false. -/
theorem c8_complete_skipped_on_failure_counterexample :
    countEvents isCompleteEvent (transform_epub_events [DocTask.mk [2] true]) = 0 := by
  decide

/-- Claim C8, amended: `onInit(totalUnits)` is emitted exactly once, as the
first event, before any transform work; `onComplete()` is emitted exactly
once on the all-success path, as the last event after all updates, and zero
times when some task fails terminally (the failure propagates instead). -/
theorem c8_lifecycle_callbacks (docs : List DocTask) :
    (transform_epub_events docs).head?
        = some (ProgressEvent.initEvent (totalUnits docs))
    ∧ countEvents isInitEvent (transform_epub_events docs) = 1
    ∧ countEvents isCompleteEvent (transform_epub_events docs)
        = (if docs.all (fun d => !d.fails) then 1 else 0)
    ∧ (docs.all (fun d => !d.fails) = true →
        (transform_epub_events docs).getLast? = some ProgressEvent.completeEvent) := by
  have hinit := updates_filter_eq_nil isInitEvent docs (fun n => rfl)
  have hcomp := updates_filter_eq_nil isCompleteEvent docs (fun n => rfl)
  refine ⟨rfl, ?_, ?_, fun hall => ?_⟩
  · unfold countEvents transform_epub_events
    rw [List.filter_cons]
    simp only [isInitEvent, if_true]
    rw [List.filter_append, hinit]
    by_cases hall : docs.all (fun d => !d.fails)
      <;> simp [hall, isInitEvent]
  · unfold countEvents transform_epub_events
    rw [List.filter_cons]
    simp only [isCompleteEvent]
    rw [List.filter_append, hcomp]
    by_cases hall : docs.all (fun d => !d.fails)
      <;> simp [hall, isCompleteEvent]
  · unfold transform_epub_events
    rw [hall]
    simp only [if_true]
    rw [← List.cons_append]
    exact List.getLast?_concat _

theorem c8_lifecycle_callbacks_witness :
    (transform_epub_events [DocTask.mk [3] false]).head?
        = some (ProgressEvent.initEvent (totalUnits [DocTask.mk [3] false]))
    ∧ countEvents isInitEvent (transform_epub_events [DocTask.mk [3] false]) = 1
    ∧ countEvents isCompleteEvent (transform_epub_events [DocTask.mk [3] false])
        = (if [DocTask.mk [3] false].all (fun d => !d.fails) then 1 else 0)
    ∧ (transform_epub_events [DocTask.mk [3] false]).getLast?
        = some ProgressEvent.completeEvent := by
  have h := c8_lifecycle_callbacks [DocTask.mk [3] false]
  exact ⟨h.1, h.2.1, h.2.2.1, h.2.2.2 (by decide)⟩
